import Mathlib

/-!
Verification of the barcode-generator repository (three Python CLI tools:
barcode_generator.py, ean13_generator.py, qr_generator.py) against its
natural-language specification.

The Python code is shallowly embedded: strings are Lean `String`s (with the
relevant Python string methods modelled character-exactly on `List Char` for
the ASCII range the tools use), fallible code returns `Except PyErr`, and
calls into the third-party rendering libraries (treepoem/PIL, python-barcode,
qrcode) are abstracted as an `Except PyErr Unit` oracle parameter.
`pathlib.PurePosixPath` operations (`suffix`, `with_suffix`, `str`) are
embedded faithfully, including the `ValueError` that `with_suffix` raises on
paths with an empty name.
-/

set_option linter.unusedVariables false

/-- Python exception kinds distinguished by the repository's `except` clauses:
`ValueError` versus any other `Exception`. -/
inductive PyErr
  | valueError (msg : String)
  | exception (msg : String)
deriving DecidableEq

def pyErrMsg : PyErr → String
  | .valueError m => m
  | .exception m => m

def exceptOk {ε α : Type} : Except ε α → Bool
  | .ok _ => true
  | .error _ => false

/-! ### Character-level models of the Python string methods used by the code -/

/-- Python `str.isdigit` restricted to the ASCII decimal digits (the only
characters the tools are concerned with). -/
def pyIsDigit (c : Char) : Bool := '0' ≤ c && c ≤ '9'

/-- The characters stripped by Python `str.strip()` (ASCII whitespace). -/
def pyIsSpace (c : Char) : Bool :=
  c == ' ' || c == '\t' || c == '\n' || c == '\r' || c == Char.ofNat 11 || c == Char.ofNat 12

/-- ASCII case folding used by Python `str.lower` on the inputs at hand. -/
def lowerChar (c : Char) : Char :=
  if 'A' ≤ c ∧ c ≤ 'Z' then Char.ofNat (c.toNat + 32) else c

/-- ASCII case folding used by Python `str.upper` on the inputs at hand. -/
def upperChar (c : Char) : Char :=
  if 'a' ≤ c ∧ c ≤ 'z' then Char.ofNat (c.toNat - 32) else c

def pyToLower (l : List Char) : List Char := l.map lowerChar

def pyToUpper (l : List Char) : List Char := l.map upperChar

/-- Python `str.isdigit()`: false on the empty string, else all digits. -/
def str_isdigit (l : List Char) : Bool := !l.isEmpty && l.all pyIsDigit

/-- Python `s.strip()`: drop leading and trailing whitespace. -/
def pystrip (l : List Char) : List Char :=
  ((l.dropWhile pyIsSpace).reverse.dropWhile pyIsSpace).reverse

/-- Python `s.startswith(pre)`. -/
def pyStartsWith (s pre : List Char) : Bool := pre.isPrefixOf s

/-- Python `s.endswith(post)`. -/
def pyEndsWith (s post : List Char) : Bool := post.isSuffixOf s

/-- Python `s.split(sep)` for a one-character separator (always returns at
least one piece; `''.split(sep) = ['']`). -/
def splitChar (sep : Char) : List Char → List (List Char)
  | [] => [[]]
  | c :: cs =>
    let r := splitChar sep cs
    if c = sep then [] :: r else (c :: r.headI) :: r.tail

/-- Python `s.split(sep, 1)`: the part before the first separator, and
`some` rest after it when the separator occurs. -/
def splitOnce (sep : Char) : List Char → List Char × Option (List Char)
  | [] => ([], none)
  | c :: cs =>
    if c = sep then ([], some cs)
    else
      let r := splitOnce sep cs
      (c :: r.1, r.2)

/-! ### pathlib.PurePosixPath model -/

/-- POSIX root parsing: exactly two leading slashes give root `//`, any other
number of leading slashes gives `/`. -/
def pathRoot (l : List Char) : List Char :=
  match l with
  | '/' :: '/' :: '/' :: _ => ['/']
  | '/' :: '/' :: _ => ['/', '/']
  | '/' :: _ => ['/']
  | _ => []

/-- A path component survives pathlib parsing when it is neither empty nor
the single dot. -/
def pathPartOk (p : List Char) : Bool := !p.isEmpty && !(p == ['.'])

/-- The non-root components of a `PurePosixPath`. -/
def pathParts (l : List Char) : List (List Char) :=
  (splitChar '/' l).filter pathPartOk

/-- Python `sep.join` (``'/'.join(parts)``). -/
def joinSep (sep : List Char) : List (List Char) → List Char
  | [] => []
  | [x] => x
  | x :: y :: rest => x ++ sep ++ joinSep sep (y :: rest)

/-- `PurePath.__str__`: root plus slash-joined parts, `'.'` when empty. -/
def formatParts (root : List Char) (parts : List (List Char)) : List Char :=
  let s := root ++ joinSep ['/'] parts
  if s = [] then ['.'] else s

/-- `str(PurePosixPath(l))`. -/
def pathStr (l : List Char) : List Char :=
  formatParts (pathRoot l) (pathParts l)

/-- `PurePath.name`: the final component, `[]` when there is none. -/
def pathName (l : List Char) : List Char :=
  ((pathParts l).getLast?).getD []

/-- `PurePath.suffix` computed from the name: the part from the last dot on,
provided that dot is neither the first nor the last character. -/
def nameSuffix (name : List Char) : List Char :=
  match splitOnce '.' name.reverse with
  | (brev, some arev) => if arev ≠ [] ∧ brev ≠ [] then '.' :: brev.reverse else []
  | (_, none) => []

/-- `PurePosixPath(l).suffix`. -/
def pathSuffix (l : List Char) : List Char := nameSuffix (pathName l)

/-- `str(PurePosixPath(l).with_suffix(suffix))` for a valid `suffix`
argument; raises `ValueError` when the path has an empty name, exactly as
CPython pathlib does. -/
def pathWithSuffix (l suffix : List Char) : Except PyErr (List Char) :=
  let name := pathName l
  if name = [] then .error (.valueError "path has an empty name")
  else
    let old := nameSuffix name
    let newName := name.take (name.length - old.length) ++ suffix
    .ok (formatParts (pathRoot l) ((pathParts l).dropLast ++ [newName]))

/-! ### CLI outcome model shared by the three `main` functions -/

/-- Observable outcome of one run of a tool's `main`: the process exit code,
the message printed to standard output (if any) and the message printed to
standard error (if any). -/
structure CliOutcome where
  exitCode : Nat
  stdoutMsg : Option String
  stderrMsg : Option String
deriving DecidableEq

/-- Each tool's `main` wraps its pipeline in
`try: ... print(success) / except ValueError, Exception: print(error, file=sys.stderr); sys.exit(1)`;
both `except` clauses print `Error: {e}` to stderr and exit with status 1. -/
def mainOutcome (okMsg : String) (r : Except PyErr String) : CliOutcome :=
  match r with
  | .ok filename => ⟨0, some (okMsg ++ filename), none⟩
  | .error e => ⟨1, none, some ("Error: " ++ pyErrMsg e)⟩

def isErrOutcome (o : CliOutcome) : Bool :=
  o.exitCode == 1 && o.stdoutMsg.isNone && o.stderrMsg.isSome

def isOkOutcome (o : CliOutcome) : Bool :=
  o.exitCode == 0 && o.stdoutMsg.isSome && o.stderrMsg.isNone

/-! ### ean13_generator.py -/

/-- `validate_ean13_code` from ean13_generator.py: reject non-digit input,
reject length other than 12, otherwise return the code unchanged. -/
def validate_ean13_code (code : String) : Except PyErr String :=
  if str_isdigit code.data = false then
    .error (.valueError "EAN-13 code must contain only digits")
  else if code.length ≠ 12 then
    .error (.valueError "EAN-13 code must be exactly 12 digits")
  else .ok code

/-- The two python-barcode writer classes the tool selects between. -/
inductive EanWriter
  | image
  | svg
deriving DecidableEq

/-- The writer / file-extension selection in `generate_barcode`
(ean13_generator.py): `ImageWriter`/`.png` exactly when
`format_type.lower() == 'png'`, and `SVGWriter`/`.svg` in every other case. -/
def ean13SelectWriter (format_type : String) : EanWriter × String :=
  if pyToLower format_type.data = "png".data then (.image, ".png")
  else (.svg, ".svg")

/-- `str(Path(output_path).with_suffix(''))` in `generate_barcode`
(ean13_generator.py): the output path with its suffix removed. -/
def ean13OutputBase (output_path : String) : Except PyErr String :=
  match pathWithSuffix output_path.data [] with
  | .ok r => .ok (String.mk r)
  | .error e => .error e

/-- The body of the `try` block of `generate_barcode` (ean13_generator.py):
validate the code, select the writer, strip the output suffix, render via
python-barcode (the `render` oracle), and return the filename reported by
`ean.save` (the stripped base plus the writer-chosen extension). -/
def ean13_generate_raw (code output_path format_type : String)
    (render : Except PyErr Unit) : Except PyErr String :=
  match validate_ean13_code code with
  | .error e => .error e
  | .ok _validated =>
    let ws := ean13SelectWriter format_type
    match ean13OutputBase output_path with
    | .error e => .error e
    | .ok base =>
      match render with
      | .error e => .error e
      | .ok _ => .ok (base ++ (if ws.1 = EanWriter.image then ".png" else ".svg"))

/-- `generate_barcode` (ean13_generator.py) with its two `except` clauses:
a `ValueError` is re-raised with the `Invalid EAN-13 code:` label, any other
exception with the `Failed to generate barcode:` label. -/
def ean13_generate (code output_path format_type : String)
    (render : Except PyErr Unit) : Except PyErr String :=
  match ean13_generate_raw code output_path format_type render with
  | .ok f => .ok f
  | .error (.valueError m) => .error (.valueError ("Invalid EAN-13 code: " ++ m))
  | .error (.exception m) => .error (.exception ("Failed to generate barcode: " ++ m))

/-- `main` of ean13_generator.py after argument parsing. -/
def ean13_tool_main (code output format_type : String)
    (render : Except PyErr Unit) : CliOutcome :=
  mainOutcome "Barcode generated successfully: "
    (ean13_generate code output format_type render)

/-! ### barcode_generator.py -/

def BARCODE_TYPES : List (String × String) := [
  ("code128", "Code 128 - High-density linear barcode for alphanumeric data"),
  ("datamatrix", "Data Matrix - 2D matrix code for small spaces and high data density"),
  ("pdf417", "PDF417 - 2D stacked barcode with high data capacity"),
  ("azteccode", "Aztec Code - 2D matrix code used in transportation"),
  ("code39", "Code 39 - Alphanumeric linear barcode"),
  ("code93", "Code 93 - Compact alphanumeric linear barcode"),
  ("interleaved2of5", "Interleaved 2 of 5 - Numeric-only linear barcode"),
  ("qrcode", "QR Code - 2D matrix code (use qr_generator.py for more options)"),
  ("upca", "UPC-A - 12-digit retail barcode"),
  ("ean13", "EAN-13 - 13-digit retail barcode (use ean13_generator.py for more options)"),
  ("maxicode", "MaxiCode - Fixed-size 2D code used by UPS"),
  ("codablock", "Codablock F - Stacked linear barcode")]

def barcodeTypeKeys : List String := BARCODE_TYPES.map Prod.fst

/-- `validate_barcode_type` from barcode_generator.py: membership test in
`BARCODE_TYPES`, raising `ValueError` on failure (the message abridged). -/
def validate_barcode_type (barcode_type : String) : Except PyErr String :=
  if barcode_type ∉ barcodeTypeKeys then
    .error (.valueError ("Unsupported barcode type " ++ barcode_type))
  else .ok barcode_type

/-- A value of the options dictionary built by `parse_options`: either a
string from a `key=value` pair or the boolean `True`. -/
inductive OptVal
  | str (v : List Char)
  | boolTrue
deriving DecidableEq

abbrev PyDict := List (List Char × OptVal)

/-- Python `options[k] = v`: replace in place when the key exists, append
otherwise (insertion-ordered dict). -/
def dictInsert (d : PyDict) (k : List Char) (v : OptVal) : PyDict :=
  if d.any (fun kv => kv.1 == k) then
    d.map (fun kv => if kv.1 == k then (k, v) else kv)
  else d ++ [(k, v)]

/-- One iteration of the loop in `parse_options`: a piece containing `=` is
stripped and unpacked via `split('=', 1)` (which raises when it yields fewer
than two values), the key and value are stripped again; a piece without `=`
is stripped and mapped to `True`. -/
def parseOptionsStep (d : PyDict) (pair : List Char) : Except PyErr PyDict :=
  if pair.contains '=' then
    match splitOnce '=' (pystrip pair) with
    | (k, some v) => .ok (dictInsert d (pystrip k) (.str (pystrip v)))
    | (_, none) => .error (.valueError "not enough values to unpack")
  else .ok (dictInsert d (pystrip pair) OptVal.boolTrue)

/-- `parse_options` from barcode_generator.py: `None` or the empty string
give the empty dict; otherwise split on commas and process each piece, any
exception being re-raised as `ValueError("Invalid options format: ...")`. -/
def parse_options (options_str : Option String) : Except PyErr PyDict :=
  match options_str with
  | none => .ok []
  | some s =>
    if s.data = [] then .ok []
    else
      match (splitChar ',' s.data).foldlM parseOptionsStep [] with
      | .ok d => .ok d
      | .error e => .error (.valueError ("Invalid options format: " ++ pyErrMsg e))

/-- The claim-level restatement of `parse_options` on one piece: total, no
failure case. -/
def parseOptionsSpecStep (d : PyDict) (pair : List Char) : PyDict :=
  if pair.contains '=' then
    let kv := splitOnce '=' (pystrip pair)
    dictInsert d (pystrip kv.1) (.str (pystrip (kv.2.getD [])))
  else dictInsert d (pystrip pair) OptVal.boolTrue

/-- The claim-level restatement of `parse_options`: a total function. -/
def parse_options_spec : Option String → PyDict
  | none => []
  | some s =>
    if s.data = [] then []
    else (splitChar ',' s.data).foldl parseOptionsSpecStep []

/-- The output-path handling of `generate_barcode` (barcode_generator.py):
`Path(output_path)`, append `.png` via `with_suffix` when there is no
suffix, and save under `str(output_path)`. -/
def barcodeOutputPath (output_path : String) : Except PyErr String :=
  let l := output_path.data
  if pathSuffix l = [] then
    match pathWithSuffix l (".png".data) with
    | .ok r => .ok (String.mk r)
    | .error e => .error e
  else .ok (String.mk (pathStr l))

/-- `generate_barcode` (barcode_generator.py): validate the type, render via
treepoem/PIL (the `render` oracle, which also stands for the final
`image.save`), compute the output path; `ValueError` is re-raised as is,
any other exception with the `Failed to generate barcode:` label. -/
def barcode_generate (data barcode_type output_path : String) (options : PyDict)
    (render : Except PyErr Unit) : Except PyErr String :=
  let body : Except PyErr String :=
    match validate_barcode_type barcode_type with
    | .error e => .error e
    | .ok _validated =>
      match render with
      | .error e => .error e
      | .ok _ => barcodeOutputPath output_path
  match body with
  | .ok f => .ok f
  | .error (.valueError m) => .error (.valueError m)
  | .error (.exception m) => .error (.exception ("Failed to generate barcode: " ++ m))

/-- The body of the `try` block of `main` (barcode_generator.py):
`parse_options` then `generate_barcode`. -/
def barcode_pipeline (data barcode_type output : String)
    (options_str : Option String) (render : Except PyErr Unit) : Except PyErr String :=
  match parse_options options_str with
  | .error e => .error e
  | .ok opts => barcode_generate data barcode_type output opts render

/-- `main` of barcode_generator.py after argument parsing (generation path,
i.e. not `--list-types`). -/
def barcode_tool_main (data barcode_type output : String)
    (options_str : Option String) (render : Except PyErr Unit) : CliOutcome :=
  mainOutcome "Barcode generated successfully: "
    (barcode_pipeline data barcode_type output options_str render)

/-! ### qr_generator.py -/

/-- The qrcode library constants `ERROR_CORRECT_L/M/Q/H`. -/
inductive ECLevel
  | L
  | M
  | Q
  | H
deriving DecidableEq

/-- The `levels` dictionary in `get_error_correction_level`. -/
def ec_levels : List (List Char × ECLevel) :=
  [("L".data, .L), ("M".data, .M), ("Q".data, .Q), ("H".data, .H)]

/-- `get_error_correction_level` from qr_generator.py:
`levels.get(level.upper(), ERROR_CORRECT_M)`. -/
def get_error_correction_level (level : String) : ECLevel :=
  (((ec_levels.find? (fun kv => kv.1 == pyToUpper level.data)).map Prod.snd)).getD .M

/-- The `choices` of the `-e` (`--error-correction`) argparse option in
`main` (qr_generator.py). -/
def ec_choices : List String := ["L", "M", "Q", "H"]

/-- The QR tool's end-to-end handling of the error-correction level:
argparse rejects (usage error) any value outside `choices`, and an accepted
value is mapped by `get_error_correction_level`. `none` models rejection. -/
def qr_main_level (level : String) : Option ECLevel :=
  if level ∈ ec_choices then some (get_error_correction_level level) else none

/-- The `valid_colors` set in `validate_colors` (qr_generator.py). -/
def valid_colors : List String :=
  ["black", "white", "red", "green", "blue", "yellow",
   "cyan", "magenta", "orange", "purple", "brown", "pink", "gray"]

/-- The per-color test of `validate_colors`: starts with `#` or lowercases
into `valid_colors`. -/
def colorAllowed (c : String) : Bool :=
  pyStartsWith c.data "#".data || (valid_colors.map String.data).contains (pyToLower c.data)

/-- `validate_colors` from qr_generator.py: test the fill color first, then
the background color, raising `ValueError` on the first failure. -/
def validate_colors (fill_color back_color : String) : Except PyErr Unit :=
  if colorAllowed fill_color then
    if colorAllowed back_color then .ok ()
    else .error (.valueError ("Invalid background color: " ++ back_color))
  else .error (.valueError ("Invalid fill color: " ++ fill_color))

/-- The `file_extension` chosen in `generate_qr_code`: `.svg` exactly when
`format_type.lower() == 'svg'`, else `.png`. -/
def qrFileExtension (format_type : String) : String :=
  if pyToLower format_type.data = "svg".data then ".svg" else ".png"

/-- The output-path handling of `generate_qr_code`:
`str(Path(output_path))`, then append the extension unless the path already
ends with it. -/
def qrOutputPath (format_type output_path : String) : String :=
  let ext := (qrFileExtension format_type).data
  let p := pathStr output_path.data
  if pyEndsWith p ext then String.mk p else String.mk (p ++ ext)

/-- `generate_qr_code` (qr_generator.py): build the QR object with the
mapped error-correction level, render via the qrcode library (the `render`
oracle, also standing for `img.save`), and return the output path; its
single `except Exception` clause relabels every failure. -/
def generate_qr_code (data output_path format_type : String)
    (box_size border : Int) (error_correction fill_color back_color : String)
    (render : Except PyErr Unit) : Except PyErr String :=
  let body : Except PyErr String :=
    let _level := get_error_correction_level error_correction
    match render with
    | .error e => .error e
    | .ok _ => .ok (qrOutputPath format_type output_path)
  match body with
  | .ok f => .ok f
  | .error e => .error (.exception ("Failed to generate QR code: " ++ pyErrMsg e))

/-- The body of the `try` block of `main` (qr_generator.py):
`validate_colors` then `generate_qr_code`. -/
def qr_pipeline (data output format_type : String) (box_size border : Int)
    (error_correction fill_color back_color : String)
    (render : Except PyErr Unit) : Except PyErr String :=
  match validate_colors fill_color back_color with
  | .error e => .error e
  | .ok _ =>
    generate_qr_code data output format_type box_size border
      error_correction fill_color back_color render

/-- `main` of qr_generator.py after argument parsing. -/
def qr_tool_main (data output format_type : String) (box_size border : Int)
    (error_correction fill_color back_color : String)
    (render : Except PyErr Unit) : CliOutcome :=
  mainOutcome "QR code generated successfully: "
    (qr_pipeline data output format_type box_size border
      error_correction fill_color back_color render)

/-! ### The argument grammars declared via argparse -/

/-- The argument declarations of `main` (barcode_generator.py): each entry
is the flag strings of one `add_argument` call (positionals have their bare
name). -/
def barcode_cli_args : List (List String) :=
  [["data"], ["type"], ["-o", "--output"], ["--options"], ["--list-types"], ["--version"]]

/-- The argument declarations of `main` (ean13_generator.py). -/
def ean13_cli_args : List (List String) :=
  [["code"], ["-o", "--output"], ["-f", "--format"], ["--version"]]

/-- The argument declarations of `main` (qr_generator.py). -/
def qr_cli_args : List (List String) :=
  [["data"], ["-o", "--output"], ["-f", "--format"], ["-e", "--error-correction"],
   ["--box-size"], ["--border"], ["--fill-color"], ["--back-color"], ["--version"]]

/-- Whether a tool's argparse declarations include the given flag string. -/
def definesFlag (args : List (List String)) (flag : String) : Bool :=
  args.any (fun g => g.contains flag)

/-! ### Helper lemmas about the character-level string operations -/

theorem pyEndsWith_iff {s post : List Char} : pyEndsWith s post = true ↔ post <:+ s := by
  simp [pyEndsWith]

theorem splitChar_ne_nil (sep : Char) (l : List Char) : splitChar sep l ≠ [] := by
  cases l with
  | nil => simp [splitChar]
  | cons c cs => by_cases hc : c = sep <;> simp [splitChar, hc]

theorem splitChar_of_not_mem {sep : Char} {l : List Char} (h : sep ∉ l) :
    splitChar sep l = [l] := by
  induction l with
  | nil => simp [splitChar]
  | cons c cs ih =>
    have hc : ¬ c = sep := fun hh => h (hh ▸ List.mem_cons_self c cs)
    have hcs : sep ∉ cs := fun hh => h (List.mem_cons_of_mem c hh)
    simp [splitChar, hc, ih hcs]

theorem two_le_splitChar_of_mem {sep : Char} {l : List Char} (h : sep ∈ l) :
    2 ≤ (splitChar sep l).length := by
  induction l with
  | nil => simp at h
  | cons c cs ih =>
    by_cases hc : c = sep
    · subst hc
      have h1 : 0 < (splitChar c cs).length :=
        List.length_pos.2 (splitChar_ne_nil c cs)
      have hstep : splitChar c (c :: cs) = [] :: splitChar c cs := by
        simp [splitChar]
      rw [hstep, List.length_cons]
      omega
    · rcases List.mem_cons.1 h with h1 | h2
      · exact absurd h1.symm hc
      · have h3 := ih h2
        have hstep : splitChar sep (c :: cs) =
            (c :: (splitChar sep cs).headI) :: (splitChar sep cs).tail := by
          simp [splitChar, hc]
        rw [hstep, List.length_cons]
        have h4 : (splitChar sep cs).tail.length = (splitChar sep cs).length - 1 :=
          List.length_tail _
        omega

theorem splitChar_singleton {sep : Char} {l p : List Char}
    (h : splitChar sep l = [p]) : p = l ∧ sep ∉ l := by
  by_cases hm : sep ∈ l
  · have h2 := two_le_splitChar_of_mem hm
    rw [h] at h2
    simp at h2
  · rw [splitChar_of_not_mem hm] at h
    exact ⟨(List.cons.injEq _ _ _ _ ▸ h).1.symm ▸ rfl, hm⟩

theorem takeWhile_append_of_all {p : Char → Bool} {l l2 : List Char}
    (h : ∀ x ∈ l, p x = true) : (l ++ l2).takeWhile p = l ++ l2.takeWhile p := by
  induction l with
  | nil => simp
  | cons a l ih =>
    have ha : p a = true := h a (List.mem_cons_self a l)
    simp only [List.cons_append, List.takeWhile_cons, ha, if_true]
    rw [ih (fun x hx => h x (List.mem_cons_of_mem a hx))]

theorem takeWhile_append_of_stop {p : Char → Bool} {l l2 : List Char}
    (h : ∃ x ∈ l, p x = false) : (l ++ l2).takeWhile p = l.takeWhile p := by
  induction l with
  | nil => simp at h
  | cons a l ih =>
    by_cases ha : p a = true
    · simp only [List.cons_append, List.takeWhile_cons, ha, if_true]
      rcases h with ⟨x, hx, hpx⟩
      rcases List.mem_cons.1 hx with rfl | hx2
      · rw [ha] at hpx; cases hpx
      · rw [ih ⟨x, hx2, hpx⟩]
    · have ha2 : p a = false := by
        cases hpa : p a
        · rfl
        · exact absurd hpa ha
      simp [List.takeWhile_cons, ha2]

theorem takeWhile_append_single {p : Char → Bool} {l : List Char} {x : Char}
    (h : p x = false) : (l ++ [x]).takeWhile p = l.takeWhile p := by
  induction l with
  | nil => simp [List.takeWhile_cons, h]
  | cons a l ih =>
    by_cases ha : p a = true
    · simp only [List.cons_append, List.takeWhile_cons, ha, if_true, ih]
    · have ha2 : p a = false := by
        cases hpa : p a
        · rfl
        · exact absurd hpa ha
      simp [List.takeWhile_cons, ha2]

/-- The final slash-separated segment of a string, computed from the right:
what Python would call `s.rsplit(sep, 1)[-1]`. -/
def lastSeg (l : List Char) : List Char :=
  ((l.reverse.takeWhile (fun c => !(c == '/'))).reverse)

theorem lastSeg_cons_slash (cs : List Char) : lastSeg ('/' :: cs) = lastSeg cs := by
  unfold lastSeg
  rw [List.reverse_cons, takeWhile_append_single (by simp)]

theorem splitChar_getLast?_eq_lastSeg (l : List Char) :
    (splitChar '/' l).getLast? = some (lastSeg l) := by
  induction l with
  | nil => simp [splitChar, lastSeg]
  | cons c cs ih =>
    by_cases hc : c = '/'
    · subst hc
      have hstep : splitChar '/' ('/' :: cs) = [] :: splitChar '/' cs := by
        simp [splitChar]
      rw [hstep]
      cases hs : splitChar '/' cs with
      | nil => exact absurd hs (splitChar_ne_nil '/' cs)
      | cons p ps =>
        rw [List.getLast?_cons_cons, ← hs, ih, lastSeg_cons_slash]
    · have hstep : splitChar '/' (c :: cs) =
          (c :: (splitChar '/' cs).headI) :: (splitChar '/' cs).tail := by
        simp [splitChar, hc]
      rw [hstep]
      cases hs : splitChar '/' cs with
      | nil => exact absurd hs (splitChar_ne_nil '/' cs)
      | cons p ps =>
        simp only [List.headI, List.tail_cons]
        cases hps : ps with
        | nil =>
          subst hps
          obtain ⟨hp, hnm⟩ := splitChar_singleton hs
          rw [hp]
          have hall : ∀ x ∈ cs.reverse ++ [c], (fun d => !(d == '/')) x = true := by
            intro x hx
            rcases List.mem_append.1 hx with hx1 | hx2
            · have hxc : x ∈ cs := List.mem_reverse.1 hx1
              simp only [Bool.not_eq_true']
              exact beq_eq_false_iff_ne.2 (fun hh => hnm (hh ▸ hxc))
            · simp only [List.mem_singleton] at hx2
              subst hx2
              simp only [Bool.not_eq_true']
              exact beq_eq_false_iff_ne.2 hc
          have hseg : lastSeg (c :: cs) = c :: cs := by
            unfold lastSeg
            rw [List.reverse_cons, List.takeWhile_eq_self_iff.2 hall]
            simp
          rw [hseg]
          simp
        | cons q qs =>
          subst hps
          have hmem : '/' ∈ cs := by
            by_contra hnm
            rw [splitChar_of_not_mem hnm] at hs
            cases hs
          have hr : (splitChar '/' cs).getLast? = (q :: qs).getLast? := by
            rw [hs, List.getLast?_cons_cons]
          rw [List.getLast?_cons_cons, ← hr, ih]
          have hseg : lastSeg (c :: cs) = lastSeg cs := by
            unfold lastSeg
            rw [List.reverse_cons,
              takeWhile_append_of_stop
                ⟨'/', List.mem_reverse.2 hmem, by simp⟩]
          rw [hseg]

theorem splitOnce_some {sep : Char} {l a b : List Char}
    (h : splitOnce sep l = (a, some b)) : l = a ++ sep :: b ∧ sep ∉ a := by
  induction l generalizing a with
  | nil => simp [splitOnce] at h
  | cons c cs ih =>
    by_cases hc : c = sep
    · subst hc
      simp only [splitOnce, if_pos rfl, Prod.mk.injEq] at h
      obtain ⟨ha, hb⟩ := h
      exact ⟨rfl, by simp⟩
    · simp only [splitOnce, if_neg hc, Prod.mk.injEq] at h
      obtain ⟨h1, h2⟩ := h
      cases a with
      | nil => simp at h1
      | cons a0 as =>
        simp only [List.cons.injEq] at h1
        obtain ⟨rfl, h1b⟩ := h1
        have hsp : splitOnce sep cs = (as, some b) := by
          rw [← h1b, ← h2]
        obtain ⟨hl, hna⟩ := ih hsp
        refine ⟨by rw [List.cons_append, hl], ?_⟩
        intro hmem
        rcases List.mem_cons.1 hmem with h3 | h4
        · exact hc h3.symm
        · exact hna h4

theorem splitOnce_isSome_of_mem {sep : Char} {l : List Char} (h : sep ∈ l) :
    (splitOnce sep l).2.isSome = true := by
  induction l with
  | nil => simp at h
  | cons c cs ih =>
    by_cases hc : c = sep
    · subst hc
      simp [splitOnce]
    · simp only [splitOnce, if_neg hc]
      rcases List.mem_cons.1 h with h1 | h2
      · exact absurd h1.symm hc
      · exact ih h2

theorem mem_dropWhile_of_mem {p : Char → Bool} {l : List Char} {c : Char}
    (h : c ∈ l) (hp : p c = false) : c ∈ l.dropWhile p := by
  induction l with
  | nil => simp at h
  | cons a l ih =>
    by_cases ha : p a = true
    · rw [List.dropWhile_cons_of_pos ha]
      rcases List.mem_cons.1 h with rfl | h2
      · rw [hp] at ha; cases ha
      · exact ih h2
    · have ha2 : p a = false := by
        cases hpa : p a
        · rfl
        · exact absurd hpa ha
      rw [List.dropWhile_cons_of_neg (by rw [ha2]; simp)]
      exact h

theorem mem_pystrip_of_mem {l : List Char} {c : Char}
    (h : c ∈ l) (hc : pyIsSpace c = false) : c ∈ pystrip l := by
  unfold pystrip
  rw [List.mem_reverse]
  exact mem_dropWhile_of_mem (List.mem_reverse.2 (mem_dropWhile_of_mem h hc)) hc

/-! ### Structure of `nameSuffix`: the suffix really is a suffix of the name -/

theorem nameSuffix_take_append (name : List Char) :
    name.take (name.length - (nameSuffix name).length) ++ nameSuffix name = name := by
  unfold nameSuffix
  cases hsp : splitOnce '.' name.reverse with
  | mk brev orev =>
    cases orev with
    | none => simp
    | some arev =>
      by_cases hcond : arev ≠ [] ∧ brev ≠ []
      · simp only [if_pos hcond]
        obtain ⟨hrev, hna⟩ := splitOnce_some hsp
        have hname : name = arev.reverse ++ '.' :: brev.reverse := by
          have := congrArg List.reverse hrev
          rw [List.reverse_reverse] at this
          rw [this]
          simp
        rw [hname]
        have hlen : (arev.reverse ++ '.' :: brev.reverse).length -
            ('.' :: brev.reverse).length = arev.reverse.length := by
          simp only [List.length_append, List.length_cons, List.length_reverse]
          omega
        rw [hlen, List.take_left]
      · simp only [if_neg hcond]
        simp

theorem nameSuffix_take_ne_nil {name : List Char} (h : name ≠ []) :
    name.take (name.length - (nameSuffix name).length) ≠ [] := by
  unfold nameSuffix
  cases hsp : splitOnce '.' name.reverse with
  | mk brev orev =>
    cases orev with
    | none => simpa using h
    | some arev =>
      by_cases hcond : arev ≠ [] ∧ brev ≠ []
      · simp only [if_pos hcond]
        obtain ⟨hrev, hna⟩ := splitOnce_some hsp
        have hname : name = arev.reverse ++ '.' :: brev.reverse := by
          have := congrArg List.reverse hrev
          rw [List.reverse_reverse] at this
          rw [this]
          simp
        rw [hname]
        have hlen : (arev.reverse ++ '.' :: brev.reverse).length -
            ('.' :: brev.reverse).length = arev.reverse.length := by
          simp only [List.length_append, List.length_cons, List.length_reverse]
          omega
        rw [hlen, List.take_left]
        simpa using hcond.1
      · simp only [if_neg hcond]
        simpa using h

/-! ### joinSep and formatParts lemmas -/

theorem joinSep_last_suffix (sep x : List Char) :
    ∀ d : List (List Char), x <:+ joinSep sep (d ++ [x]) := by
  intro d
  induction d with
  | nil => simp [joinSep]
  | cons a d ih =>
    cases hd : d ++ [x] with
    | nil => simp at hd
    | cons y rest =>
      rw [List.cons_append, hd]
      show x <:+ a ++ sep ++ joinSep sep (y :: rest)
      rw [← hd]
      exact ih.trans (List.suffix_append (a ++ sep) _)

theorem joinSep_append_last (sep x y : List Char) :
    ∀ d : List (List Char), joinSep sep (d ++ [x ++ y]) = joinSep sep (d ++ [x]) ++ y := by
  intro d
  induction d with
  | nil => simp [joinSep]
  | cons a d ih =>
    cases hd : d ++ [x ++ y] with
    | nil => simp at hd
    | cons z rest =>
      cases hd2 : d ++ [x] with
      | nil => simp at hd2
      | cons w rest2 =>
        rw [List.cons_append, hd, List.cons_append, hd2]
        show a ++ sep ++ joinSep sep (z :: rest) = a ++ sep ++ joinSep sep (w :: rest2) ++ y
        rw [← hd, ← hd2, ih]
        simp [List.append_assoc]

theorem formatParts_def (root : List Char) (parts : List (List Char)) :
    formatParts root parts =
      if root ++ joinSep ['/'] parts = [] then ['.']
      else root ++ joinSep ['/'] parts := rfl

theorem formatParts_append_last {x : List Char} (root y : List Char)
    (d : List (List Char)) (hx : x ≠ []) :
    formatParts root (d ++ [x ++ y]) = formatParts root (d ++ [x]) ++ y := by
  have h1 : x <:+ joinSep ['/'] (d ++ [x]) := joinSep_last_suffix _ _ _
  have hb1 : joinSep ['/'] (d ++ [x]) ≠ [] := by
    intro hh
    rw [hh] at h1
    exact hx (List.suffix_nil.1 h1)
  have h2 : x ++ y <:+ joinSep ['/'] (d ++ [x ++ y]) := joinSep_last_suffix _ _ _
  have hb2 : joinSep ['/'] (d ++ [x ++ y]) ≠ [] := by
    intro hh
    rw [hh] at h2
    have h3 := List.suffix_nil.1 h2
    exact hx (List.append_eq_nil.1 h3).1
  have hc1 : root ++ joinSep ['/'] (d ++ [x]) ≠ [] :=
    fun hh => hb1 (List.append_eq_nil.1 hh).2
  have hc2 : root ++ joinSep ['/'] (d ++ [x ++ y]) ≠ [] :=
    fun hh => hb2 (List.append_eq_nil.1 hh).2
  rw [formatParts_def, formatParts_def, if_neg hc2, if_neg hc1,
    joinSep_append_last, List.append_assoc]

theorem filter_getLast? {p : List Char → Bool} {l : List (List Char)} {x : List Char}
    (h : l.getLast? = some x) (hp : p x = true) : (l.filter p).getLast? = some x := by
  induction l with
  | nil => simp at h
  | cons a l ih =>
    cases l with
    | nil =>
      simp only [List.getLast?_singleton, Option.some.injEq] at h
      subst h
      simp [List.filter, hp]
    | cons b t =>
      rw [List.getLast?_cons_cons] at h
      have h2 := ih h
      cases hf : (b :: t).filter p with
      | nil => rw [hf] at h2; simp at h2
      | cons y ys =>
        rw [hf] at h2
        by_cases hpa : p a = true
        · rw [List.filter_cons_of_pos hpa, hf, List.getLast?_cons_cons]
          exact h2
        · have hpa2 : p a = false := by
            cases hq : p a
            · rfl
            · exact absurd hq hpa
          rw [List.filter_cons_of_neg (by rw [hpa2]; simp), hf]
          exact h2

/-- Decomposition of the parts list at a nonempty name. -/
theorem pathParts_decomp {l : List Char} (h : pathName l ≠ []) :
    (pathParts l).getLast? = some (pathName l) ∧
      pathParts l = (pathParts l).dropLast ++ [pathName l] := by
  cases hg : (pathParts l).getLast? with
  | none =>
    exfalso
    apply h
    unfold pathName
    rw [hg]
    rfl
  | some n =>
    have hn : pathName l = n := by
      unfold pathName
      rw [hg]
      rfl
    rw [hn]
    exact ⟨rfl, (List.dropLast_append_getLast? n hg).symm⟩

/-- The central path identity: for a path with a nonempty name, the printed
path is the suffix-stripped printed path followed by the suffix. -/
theorem pathStr_eq_stripped_append {l : List Char} (h : pathName l ≠ []) :
    pathStr l =
      formatParts (pathRoot l)
        ((pathParts l).dropLast ++
          [(pathName l).take ((pathName l).length - (pathSuffix l).length)]) ++
        pathSuffix l := by
  obtain ⟨hg, hdec⟩ := pathParts_decomp h
  have hx : (pathName l).take ((pathName l).length - (pathSuffix l).length) ≠ [] := by
    unfold pathSuffix
    exact nameSuffix_take_ne_nil h
  have hname : (pathName l).take ((pathName l).length - (pathSuffix l).length) ++
      pathSuffix l = pathName l := by
    unfold pathSuffix
    exact nameSuffix_take_append _
  have hfp := formatParts_append_last (pathRoot l) (pathSuffix l)
    ((pathParts l).dropLast) hx
  rw [hname] at hfp
  have hps : formatParts (pathRoot l)
      ((pathParts l).dropLast ++ [pathName l]) = pathStr l := by
    rw [← hdec]
    rfl
  rw [hps] at hfp
  exact hfp

/-- `pathWithSuffix` on a path with a nonempty name: the else branch. -/
theorem pathWithSuffix_of_name_ne_nil {l : List Char} (suffix : List Char)
    (h : pathName l ≠ []) :
    pathWithSuffix l suffix =
      .ok (formatParts (pathRoot l)
        ((pathParts l).dropLast ++
          [(pathName l).take ((pathName l).length - (nameSuffix (pathName l)).length) ++
            suffix])) := by
  unfold pathWithSuffix
  rw [if_neg h]

/-- The ean13_generator.py suffix stripping: putting the suffix back after
`with_suffix('')` recovers the printed path. -/
theorem ean13OutputBase_strips {p : String} (h : pathName p.data ≠ []) :
    Except.map (fun s => s ++ String.mk (pathSuffix p.data)) (ean13OutputBase p) =
      .ok (String.mk (pathStr p.data)) := by
  have h1 : ean13OutputBase p =
      .ok (String.mk (formatParts (pathRoot p.data)
        ((pathParts p.data).dropLast ++
          [(pathName p.data).take
            ((pathName p.data).length - (nameSuffix (pathName p.data)).length)]))) := by
    simp only [ean13OutputBase, pathWithSuffix_of_name_ne_nil [] h, List.append_nil]
  rw [h1]
  simp only [Except.map]
  have hmk : ∀ x y : List Char, String.mk x ++ String.mk y = String.mk (x ++ y) :=
    fun x y => rfl
  rw [hmk]
  congr 1
  congr 1
  exact (pathStr_eq_stripped_append h).symm

/-- The barcode_generator.py output-path computation on a path with a
nonempty name. -/
theorem barcodeOutputPath_of_name_ne_nil {p : String} (h : pathName p.data ≠ []) :
    barcodeOutputPath p =
      .ok (String.mk
        (if pathSuffix p.data = [] then pathStr p.data ++ ".png".data
         else pathStr p.data)) := by
  by_cases hs : pathSuffix p.data = []
  · obtain ⟨hg, hdec⟩ := pathParts_decomp h
    have hold : nameSuffix (pathName p.data) = [] := hs
    have hfp : formatParts (pathRoot p.data)
        ((pathParts p.data).dropLast ++ [pathName p.data ++ ".png".data]) =
        formatParts (pathRoot p.data)
          ((pathParts p.data).dropLast ++ [pathName p.data]) ++ ".png".data :=
      formatParts_append_last _ _ _ h
    have hps : formatParts (pathRoot p.data)
        ((pathParts p.data).dropLast ++ [pathName p.data]) = pathStr p.data := by
      rw [← hdec]
      rfl
    simp only [barcodeOutputPath, if_pos hs,
      pathWithSuffix_of_name_ne_nil (".png".data) h, hold,
      List.length_nil, Nat.sub_zero, List.take_length]
    rw [hfp, hps]
  · simp only [barcodeOutputPath, if_neg hs]

/-! ### Suffix preservation through path normalisation (qr_generator.py) -/

theorem suffix_lastSeg {ext l : List Char} (hsuf : ext <:+ l)
    (hnos : ∀ c ∈ ext, (c == '/') = false) : ext <:+ lastSeg l := by
  obtain ⟨pre, rfl⟩ := hsuf
  unfold lastSeg
  rw [List.reverse_append,
    takeWhile_append_of_all (fun x hx => by
      simp only [Bool.not_eq_true']
      exact hnos x (List.mem_reverse.1 hx)),
    List.reverse_append, List.reverse_reverse]
  exact List.suffix_append _ _

theorem endsWith_pathStr {ext l : List Char} (hsuf : ext <:+ l)
    (hne : ext ≠ []) (hlen : 2 ≤ ext.length)
    (hnos : ∀ c ∈ ext, (c == '/') = false) : ext <:+ pathStr l := by
  have hseg : ext <:+ lastSeg l := suffix_lastSeg hsuf hnos
  have hsegne : lastSeg l ≠ [] := by
    intro hh
    rw [hh] at hseg
    exact hne (List.suffix_nil.1 hseg)
  have hsegdot : lastSeg l ≠ ['.'] := by
    intro hh
    rw [hh] at hseg
    have h2 := hseg.length_le
    simp only [List.length_singleton] at h2
    omega
  have hok : pathPartOk (lastSeg l) = true := by
    unfold pathPartOk
    rw [Bool.and_eq_true, Bool.not_eq_true', Bool.not_eq_true']
    constructor
    · rw [List.isEmpty_eq_false_iff_exists_mem]
      cases hls : lastSeg l with
      | nil => exact absurd hls hsegne
      | cons a t => exact ⟨a, by simp⟩
    · exact beq_eq_false_iff_ne.2 hsegdot
  have hgl : (pathParts l).getLast? = some (lastSeg l) := by
    unfold pathParts
    exact filter_getLast? (splitChar_getLast?_eq_lastSeg l) hok
  have hdec : pathParts l = (pathParts l).dropLast ++ [lastSeg l] :=
    (List.dropLast_append_getLast? _ hgl).symm
  have hjs : lastSeg l <:+ joinSep ['/'] (pathParts l) := by
    rw [hdec]
    exact joinSep_last_suffix _ _ _
  have hjne : joinSep ['/'] (pathParts l) ≠ [] := by
    intro hh
    rw [hh] at hjs
    exact hsegne (List.suffix_nil.1 hjs)
  have hcne : pathRoot l ++ joinSep ['/'] (pathParts l) ≠ [] :=
    fun hh => hjne (List.append_eq_nil.1 hh).2
  unfold pathStr
  rw [formatParts_def, if_neg hcne]
  exact (hseg.trans hjs).trans (List.suffix_append _ _)

theorem qrFileExtension_cases (format_type : String) :
    (qrFileExtension format_type).data = ".svg".data ∨
      (qrFileExtension format_type).data = ".png".data := by
  unfold qrFileExtension
  by_cases hf : pyToLower format_type.data = "svg".data
  · rw [if_pos hf]
    left
    rfl
  · rw [if_neg hf]
    right
    rfl

theorem qrOutputPath_no_append {format_type p : String}
    (h : pyEndsWith p.data (qrFileExtension format_type).data = true) :
    qrOutputPath format_type p = String.mk (pathStr p.data) := by
  have hsuf : (qrFileExtension format_type).data <:+ p.data := pyEndsWith_iff.1 h
  have hps : pyEndsWith (pathStr p.data) (qrFileExtension format_type).data = true := by
    apply pyEndsWith_iff.2
    rcases qrFileExtension_cases format_type with he | he <;>
      · rw [he] at hsuf ⊢
        exact endsWith_pathStr hsuf (by decide) (by decide) (by decide)
  unfold qrOutputPath
  rw [if_pos hps]

theorem qrOutputPath_endsWith (format_type p : String) :
    pyEndsWith (qrOutputPath format_type p).data
      (qrFileExtension format_type).data = true := by
  unfold qrOutputPath
  by_cases hc : pyEndsWith (pathStr p.data) (qrFileExtension format_type).data = true
  · rw [if_pos hc]
    exact hc
  · rw [if_neg hc]
    apply pyEndsWith_iff.2
    exact List.suffix_append _ _

/-! ### parse_options never raises and equals its claim-level restatement -/

theorem contains_iff_mem {α : Type} [BEq α] [LawfulBEq α] {l : List α} {c : α} :
    l.contains c = true ↔ c ∈ l := by
  simp [List.contains, List.elem_iff]

theorem parseOptionsStep_eq (d : PyDict) (pair : List Char) :
    parseOptionsStep d pair = .ok (parseOptionsSpecStep d pair) := by
  by_cases hc : pair.contains '=' = true
  · have hm : '=' ∈ pair := contains_iff_mem.1 hc
    have hm2 : '=' ∈ pystrip pair := mem_pystrip_of_mem hm (by decide)
    have hsome := splitOnce_isSome_of_mem hm2
    rcases hq : splitOnce '=' (pystrip pair) with ⟨k, o⟩
    cases o with
    | none =>
      rw [hq] at hsome
      simp at hsome
    | some v => simp [parseOptionsStep, parseOptionsSpecStep, hm, hq]
  · have hnm : ¬ '=' ∈ pair := fun hmm => absurd (contains_iff_mem.2 hmm) hc
    simp [parseOptionsStep, parseOptionsSpecStep, hnm]

theorem foldlM_parseOptions (pieces : List (List Char)) :
    ∀ d, pieces.foldlM parseOptionsStep d = .ok (pieces.foldl parseOptionsSpecStep d) := by
  induction pieces with
  | nil =>
    intro d
    rfl
  | cons a l ih =>
    intro d
    rw [List.foldlM_cons, parseOptionsStep_eq, List.foldl_cons]
    show l.foldlM parseOptionsStep (parseOptionsSpecStep d a) = _
    exact ih _

theorem bool_eq_false {b : Bool} (h : ¬ b = true) : b = false := by
  cases hq : b
  · rfl
  · exact absurd hq h

theorem colorAllowed_iff (c : String) :
    colorAllowed c = true ↔
      (pyStartsWith c.data "#".data = true ∨
        pyToLower c.data ∈ valid_colors.map String.data) := by
  simp [colorAllowed, Bool.or_eq_true, contains_iff_mem]

theorem mainOutcome_spec (okMsg : String) (r : Except PyErr String) :
    (isErrOutcome (mainOutcome okMsg r) = true ↔ exceptOk r = false) ∧
    (isOkOutcome (mainOutcome okMsg r) = true ↔ exceptOk r = true) := by
  cases r with
  | ok f => simp [mainOutcome, isErrOutcome, isOkOutcome, exceptOk]
  | error e => simp [mainOutcome, isErrOutcome, isOkOutcome, exceptOk]

/-! ### The claims -/

/-- C1: `validate_ean13_code` (ean13_generator.py) raises `ValueError` if and
only if the code is not composed solely of digits or its length is not
exactly 12, and when it does not raise it returns its input unchanged. -/
theorem claim_C1_validate_ean13 (code : String) :
    (exceptOk (validate_ean13_code code) = false ↔
      code.data.all pyIsDigit = false ∨ code.length ≠ 12) ∧
    (validate_ean13_code code = .ok code ∨
      exceptOk (validate_ean13_code code) = false) := by
  have hlen : code.length = code.data.length := rfl
  by_cases hemp : code.data = []
  · have herr : exceptOk (validate_ean13_code code) = false := by
      simp [validate_ean13_code, str_isdigit, hemp, exceptOk]
    refine ⟨⟨fun _ => Or.inr ?_, fun _ => herr⟩, Or.inr herr⟩
    rw [hlen, hemp]
    simp
  · have hne : code.data.isEmpty = false := by
      cases hd : code.data
      · exact absurd hd hemp
      · rfl
    by_cases hall : code.data.all pyIsDigit = true
    · by_cases hl : code.length = 12
      · have hok : validate_ean13_code code = .ok code := by
          simp [validate_ean13_code, str_isdigit, hne, hall, hl]
        constructor
        · rw [hok]
          simp [exceptOk, hall, hl]
        · exact Or.inl hok
      · have herr : exceptOk (validate_ean13_code code) = false := by
          simp [validate_ean13_code, str_isdigit, hne, hall, hl, exceptOk]
        constructor
        · rw [herr]
          simp [hall, hl]
        · exact Or.inr herr
    · have hallf : code.data.all pyIsDigit = false := bool_eq_false hall
      have herr : exceptOk (validate_ean13_code code) = false := by
        simp [validate_ean13_code, str_isdigit, hne, hallf, exceptOk]
      constructor
      · rw [herr]
        simp [hallf]
      · exact Or.inr herr

/-- C3: `validate_barcode_type` (barcode_generator.py) returns its input
unchanged exactly on the 12 keys of `BARCODE_TYPES` and raises `ValueError`
on every other string. -/
theorem claim_C3_validate_barcode_type (barcode_type : String) :
    (validate_barcode_type barcode_type = .ok barcode_type ↔
      barcode_type ∈ barcodeTypeKeys) ∧
    (exceptOk (validate_barcode_type barcode_type) = false ↔
      barcode_type ∉ barcodeTypeKeys) ∧
    barcodeTypeKeys = ["code128", "datamatrix", "pdf417", "azteccode", "code39",
      "code93", "interleaved2of5", "qrcode", "upca", "ean13", "maxicode",
      "codablock"] := by
  refine ⟨?_, ?_, rfl⟩
  · by_cases h : barcode_type ∈ barcodeTypeKeys
    · simp [validate_barcode_type, h]
    · simp [validate_barcode_type, h]
  · by_cases h : barcode_type ∈ barcodeTypeKeys
    · simp [validate_barcode_type, h, exceptOk]
    · simp [validate_barcode_type, h, exceptOk]

/-- C7: `validate_colors` (qr_generator.py) raises `ValueError` if and only
if at least one of the two colors neither starts with `#` nor, lowercased,
belongs to the enumerated color set; when both pass it returns normally. -/
theorem claim_C7_validate_colors (fill_color back_color : String) :
    (exceptOk (validate_colors fill_color back_color) = false ↔
      ¬ (pyStartsWith fill_color.data "#".data = true ∨
          pyToLower fill_color.data ∈ valid_colors.map String.data) ∨
      ¬ (pyStartsWith back_color.data "#".data = true ∨
          pyToLower back_color.data ∈ valid_colors.map String.data)) ∧
    (validate_colors fill_color back_color = .ok () ∨
      exceptOk (validate_colors fill_color back_color) = false) := by
  rw [← colorAllowed_iff, ← colorAllowed_iff]
  by_cases hf : colorAllowed fill_color = true
  · by_cases hb : colorAllowed back_color = true
    · simp [validate_colors, hf, hb, exceptOk]
    · simp [validate_colors, hf, bool_eq_false hb, hb, exceptOk]
  · simp [validate_colors, bool_eq_false hf, hf, exceptOk]

/-- C10: `validate_colors` accepts any pair of colors that both start with
the character `#`, with no further validation. -/
theorem claim_C10_hash_colors (fill_color back_color : String)
    (hf : pyStartsWith fill_color.data "#".data = true)
    (hb : pyStartsWith back_color.data "#".data = true) :
    validate_colors fill_color back_color = .ok () := by
  have h1 : colorAllowed fill_color = true := by
    unfold colorAllowed
    rw [hf, Bool.true_or]
  have h2 : colorAllowed back_color = true := by
    unfold colorAllowed
    rw [hb, Bool.true_or]
  simp [validate_colors, h1, h2]

/-- C10 witness: the colors `#zzz` and `#` are accepted. -/
theorem claim_C10_witness :
    pyStartsWith "#zzz".data "#".data = true ∧
      pyStartsWith "#".data "#".data = true ∧
      validate_colors "#zzz" "#" = .ok () :=
  ⟨by decide, by decide, claim_C10_hash_colors "#zzz" "#" (by decide) (by decide)⟩

/-- C9: in `generate_barcode` (ean13_generator.py), every format whose
lowercase form is not `png` selects the SVG writer and the `.svg` extension,
with no error raised. -/
theorem claim_C9_ean13_format_fallback (format_type : String)
    (h : pyToLower format_type.data ≠ "png".data) :
    ean13SelectWriter format_type = (EanWriter.svg, ".svg") := by
  unfold ean13SelectWriter
  rw [if_neg h]

/-- C9 witness: the unrecognized format `jpeg` is silently treated as SVG. -/
theorem claim_C9_witness :
    pyToLower "jpeg".data ≠ "png".data ∧
      ean13SelectWriter "jpeg" = (EanWriter.svg, ".svg") :=
  ⟨by decide, claim_C9_ean13_format_fallback "jpeg" (by decide)⟩

/-- C4: the QR tool's handling of the error-correction level rejects every
level outside the enumeration L, M, Q, H (up to case) instead of mapping it
to a valid constant: argparse `choices` rejects it before
`get_error_correction_level` can default it to M. -/
theorem claim_C4_qr_level_membership (level : String)
    (h : pyToUpper level.data ∉ ec_choices.map String.data) :
    qr_main_level level = none := by
  unfold qr_main_level
  have hn : ¬ level ∈ ec_choices := by
    intro hmem
    apply h
    have hm2 : level = "L" ∨ level = "M" ∨ level = "Q" ∨ level = "H" := by
      simpa [ec_choices] using hmem
    rcases hm2 with rfl | rfl | rfl | rfl <;> decide
  rw [if_neg hn]

/-- C4 witness: the level `xyz` is rejected. -/
theorem claim_C4_witness :
    pyToUpper "xyz".data ∉ ec_choices.map String.data ∧ qr_main_level "xyz" = none :=
  ⟨by decide, claim_C4_qr_level_membership "xyz" (by decide)⟩

/-- C5 counterexample: `main` of barcode_generator.py declares no `-f` and
no `--format` option. -/
theorem claim_C5_counterexample :
    definesFlag barcode_cli_args "-f" = false ∧
      definesFlag barcode_cli_args "--format" = false := by
  constructor
  · rfl
  · rfl

/-- C5 (amended): ean13_generator.py and qr_generator.py declare
`-f`/`--format`; barcode_generator.py declares its positionals `data` and
`type`, `-o`/`--output` and `--options`, but no `-f`/`--format` option. -/
theorem claim_C5_amended_grammar :
    definesFlag ean13_cli_args "-f" = true ∧
    definesFlag ean13_cli_args "--format" = true ∧
    definesFlag qr_cli_args "-f" = true ∧
    definesFlag qr_cli_args "--format" = true ∧
    definesFlag barcode_cli_args "-f" = false ∧
    definesFlag barcode_cli_args "--format" = false ∧
    definesFlag barcode_cli_args "-o" = true ∧
    definesFlag barcode_cli_args "--output" = true ∧
    definesFlag barcode_cli_args "--options" = true ∧
    definesFlag ean13_cli_args "-o" = true ∧
    definesFlag qr_cli_args "-o" = true ∧
    definesFlag qr_cli_args "-e" = true ∧
    ["data"] ∈ barcode_cli_args ∧ ["type"] ∈ barcode_cli_args ∧
    ["code"] ∈ ean13_cli_args ∧ ["data"] ∈ qr_cli_args := by
  decide

/-- C8: `parse_options` (barcode_generator.py) is total: it never raises,
maps `None` and the empty string to the empty dict, and otherwise splits on
commas, mapping `key=value` pieces to stripped pairs split at the first `=`
and bare pieces to `True` (`parse_options_spec` is that total description). -/
theorem claim_C8_parse_options (options_str : Option String) :
    parse_options options_str = .ok (parse_options_spec options_str) := by
  cases options_str with
  | none => rfl
  | some s =>
    by_cases hs : s.data = []
    · simp [parse_options, parse_options_spec, hs]
    · simp only [parse_options, parse_options_spec, if_neg hs]
      rw [foldlM_parseOptions]

/-- C2: for each of the three tools, the `main` entry point prints an error
to standard error and exits with status 1 exactly when its pipeline
(validation plus generation) fails, and prints a success message to standard
output with exit status 0 exactly when the pipeline succeeds. -/
theorem claim_C2_main_outcomes
    (data barcode_type output code fmt ec fill back : String)
    (options_str : Option String) (box border : Int)
    (r1 r2 r3 : Except PyErr Unit) :
    ((isErrOutcome (barcode_tool_main data barcode_type output options_str r1) = true ↔
        exceptOk (barcode_pipeline data barcode_type output options_str r1) = false) ∧
      (isOkOutcome (barcode_tool_main data barcode_type output options_str r1) = true ↔
        exceptOk (barcode_pipeline data barcode_type output options_str r1) = true)) ∧
    ((isErrOutcome (ean13_tool_main code output fmt r2) = true ↔
        exceptOk (ean13_generate code output fmt r2) = false) ∧
      (isOkOutcome (ean13_tool_main code output fmt r2) = true ↔
        exceptOk (ean13_generate code output fmt r2) = true)) ∧
    ((isErrOutcome (qr_tool_main data output fmt box border ec fill back r3) = true ↔
        exceptOk (qr_pipeline data output fmt box border ec fill back r3) = false) ∧
      (isOkOutcome (qr_tool_main data output fmt box border ec fill back r3) = true ↔
        exceptOk (qr_pipeline data output fmt box border ec fill back r3) = true)) :=
  ⟨mainOutcome_spec _ _, mainOutcome_spec _ _, mainOutcome_spec _ _⟩

/-- C6 counterexample: for the output path `.` — which has no suffix — the
barcode_generator.py path handling does not append `.png` but raises
`ValueError` (from `with_suffix` on a path with an empty name), and the
ean13_generator.py suffix stripping raises as well. -/
theorem claim_C6_counterexample :
    pathSuffix ".".data = [] ∧
      barcodeOutputPath "." = .error (.valueError "path has an empty name") ∧
      exceptOk (ean13OutputBase ".") = false := by
  refine ⟨rfl, rfl, rfl⟩

/-- C6 (amended): for every output path whose pathlib name is nonempty,
`generate_barcode` (barcode_generator.py) appends `.png` exactly when the
path has no suffix and otherwise keeps the path (and its suffix) unchanged,
and `generate_barcode` (ean13_generator.py) strips the suffix before saving
(re-appending the stripped suffix recovers the printed path); for paths with
an empty name, such as `.`, both raise `ValueError` instead.
`generate_qr_code` always returns a path ending in `.svg` when format_type
lowercases to `svg` and `.png` otherwise, and appends nothing when the given
path already ends with that extension. -/
theorem claim_C6_amended_extensions (output_path format_type : String) :
    (pathName output_path.data ≠ [] →
      barcodeOutputPath output_path =
        .ok (String.mk (if pathSuffix output_path.data = []
          then pathStr output_path.data ++ ".png".data
          else pathStr output_path.data)) ∧
      Except.map (fun s => s ++ String.mk (pathSuffix output_path.data))
          (ean13OutputBase output_path) =
        .ok (String.mk (pathStr output_path.data))) ∧
    pyEndsWith (qrOutputPath format_type output_path).data
      (qrFileExtension format_type).data = true ∧
    (pyEndsWith output_path.data (qrFileExtension format_type).data = true →
      qrOutputPath format_type output_path = String.mk (pathStr output_path.data)) :=
  ⟨fun h => ⟨barcodeOutputPath_of_name_ne_nil h, ean13OutputBase_strips h⟩,
    qrOutputPath_endsWith _ _, fun h => qrOutputPath_no_append h⟩

/-- C6 witness: at the path `x.png` with format `png` all hypotheses hold. -/
theorem claim_C6_amended_witness :
    barcodeOutputPath "x.png" = .ok (String.mk (pathStr "x.png".data)) ∧
      Except.map (fun s => s ++ String.mk (pathSuffix "x.png".data))
          (ean13OutputBase "x.png") =
        .ok (String.mk (pathStr "x.png".data)) ∧
      pyEndsWith (qrOutputPath "png" "x.png").data (qrFileExtension "png").data = true ∧
      qrOutputPath "png" "x.png" = String.mk (pathStr "x.png".data) := by
  have h := claim_C6_amended_extensions "x.png" "png"
  refine ⟨?_, (h.1 (by decide)).2, h.2.1, h.2.2 (by decide)⟩
  have hb := (h.1 (by decide)).1
  rw [hb]
  rfl

/-- C7 witness: the color `teal` is outside the enumeration and rejected. -/
theorem claim_C7_witness :
    exceptOk (validate_colors "teal" "white") = false :=
  (claim_C7_validate_colors "teal" "white").1.mpr (by decide)
